import Mathlib

/-!
Shallow embedding of the RTC::Codecs capability registry and key-frame
detection engine of this repository (worker/include/RTC/Codecs/Codecs.hpp).

The repository snapshot contains only the header, which declares

  bool isKnown(const RTC::RtpCodecMimeType& mimeType);
  bool isKeyFrame(const RTC::RtpCodecMimeType& mimeType, const RTC::RtpPacket* packet);

and includes RTC/Codecs/VP8.hpp.  The bodies of the registry, the dispatch
and the per-codec payload parsers are not part of the snapshot, so every
implementation definition below is modelled from the specification
(spec.md §2-§4, §8-§9) and carries a doc comment saying so.

Modelling conventions:
* a payload view is an access function `data : Nat → Nat` together with a
  length `len`; each read truncates to a byte (`% 256`), mirroring the
  `const uint8_t*` / `size_t` pair of the C++ interface;
* all parsers read bytes only through the bounds-checked cursor
  `viewRead data len : Nat → Option Nat`, which yields `none` outside the
  supplied range — the "explicit bounds-checked cursor abstraction for
  every field read, shared across all parsers" of spec §9;
* the supported set maps Family A to video/VP8 (the header includes
  RTC/Codecs/VP8.hpp and the spec's example identity is "video"/"VP8"),
  Family B to video/VP9, Family C (unit-typed, NAL-based per the glossary)
  to video/H264, and the audio codec with no key-frame concept to
  audio/opus.
-/

namespace RTC

namespace Codecs

/-- Modelled from the spec: ASCII lower-casing of one character, the basis of
the "normalized subtype accessor" used for case-insensitive subtype
comparison (spec §3, §6). -/
def asciiLower (c : Char) : Char :=
  if 'A' ≤ c ∧ c ≤ 'Z' then Char.ofNat (c.toNat + 32) else c

/-- Modelled from the spec: the normalized form of a codec subtype — its
character list lower-cased — so that "equality is case-insensitive subtype
comparison" (spec §3). -/
def normalizeSubtype (s : String) : List Char :=
  s.data.map asciiLower

/-- Media kind of a codec identity: its family ("audio" or "video"). -/
inductive MediaKind where
  | audio
  | video
deriving DecidableEq, Repr

/-- Codec identity (RTC::RtpCodecMimeType): an immutable family + subtype
pair, e.g. "video"/"VP8", used purely as a lookup key (spec §3). -/
structure RtpCodecMimeType where
  kind : MediaKind
  subtype : String

/-- Modelled from the spec: the bounds-checked byte cursor over a payload
view.  Reading index i yields the i-th payload byte when i is inside the
supplied length and nothing otherwise; every parser field read goes through
it (spec §9). -/
def viewRead (data : Nat → Nat) (len : Nat) : Nat → Option Nat :=
  fun i => if i < len then some (data i % 256) else none

/-- Convenience payload view built from a list of bytes. -/
def payloadOf (p : List Nat) : Nat → Nat :=
  fun i => p.getD i 0

/-- Modelled from the spec (Family A, §4.2): the number of optional
extension bytes announced by the flag bits of the extension byte
(extended-control byte, picture-ID byte, layer-index byte — one per flag,
bits 6, 5 and 4). -/
def familyAExtensionCount (ext : Nat) : Nat :=
  (if ext.testBit 6 then 1 else 0) + (if ext.testBit 5 then 1 else 0) +
    (if ext.testBit 4 then 1 else 0)

/-- Modelled from the spec (Family A, §4.2 and §8 Scenarios 1-3): locate the
payload-header byte.  Bit 7 of the first byte is the extension flag; with no
extension flags the first byte is itself the payload-header byte (Scenario 1:
the single byte 0x10 already decides key-frame-ness), otherwise one
extension byte follows and its own flags give the count of further optional
bytes, after which the payload header starts (Scenario 3: descriptor
[0x80, 0x81] has total length 2 and byte 0x10 at index 2 is the header).
Any read outside the view aborts with none. -/
def familyAHeaderIndex (get : Nat → Option Nat) : Option Nat :=
  match get 0 with
  | none => none
  | some b0 =>
    if b0.testBit 7 then
      match get 1 with
      | none => none
      | some ext =>
        match get (2 + familyAExtensionCount ext) with
        | none => none
        | some _ => some (2 + familyAExtensionCount ext)
    else some 0

namespace VP8

/-- Modelled from the spec (Family A, §4.2): skip the variable-length
descriptor, then a single bit (bit 0) of the first payload-header byte
distinguishes key frame (0) from inter frame (1).  Truncation at any
required field yields false. -/
def IsKeyFrame (get : Nat → Option Nat) : Bool :=
  match familyAHeaderIndex get with
  | none => false
  | some h =>
    match get h with
    | none => false
    | some b => ! b.testBit 0

end VP8

namespace VP9

/-- Modelled from the spec (Family B, §4.2): a compact single-byte
descriptor holding an explicit frame marker (bit 7) plus an explicit
key-frame bit (bit 6, clear on a key frame) — a fixed-offset check. -/
def IsKeyFrame (get : Nat → Option Nat) : Bool :=
  match get 0 with
  | none => false
  | some b0 => b0.testBit 7 && ! b0.testBit 6

end VP9

/-- Type field of a unit-typed (NAL) octet: its low five bits. -/
def nalUnitType (b : Nat) : Nat := b % 32

/-- Unit type signalling instantaneous refresh (IDR) in Family C. -/
def idrUnitType : Nat := 5

/-- Unit type of an aggregation packet (STAP-A) in Family C. -/
def stapUnitType : Nat := 24

/-- Unit type of a fragmentation unit (FU-A) in Family C. -/
def fuUnitType : Nat := 28

/-- Modelled from the spec (Family C, §4.2): walk the units of an
aggregation packet.  Each unit is a 2-byte big-endian size followed by that
many bytes; the walk answers true as soon as a contained unit's type field
is the instantaneous-refresh type, and aborts with false on a zero size, a
unit overrunning the view, or any out-of-range read.  Fuel bounds the
recursion; the callers pass the view length, which the strictly advancing
offset can never exhaust. -/
def walkAggregate (get : Nat → Option Nat) (len : Nat) : Nat → Nat → Bool
  | 0, _ => false
  | fuel + 1, offset =>
    match get offset, get (offset + 1) with
    | some hi, some lo =>
      if hi * 256 + lo = 0 then false
      else if len < offset + 2 + (hi * 256 + lo) then false
      else
        match get (offset + 2) with
        | none => false
        | some b =>
          if nalUnitType b = idrUnitType then true
          else walkAggregate get len fuel (offset + 2 + (hi * 256 + lo))
    | _, _ => false

namespace H264

/-- Modelled from the spec (Family C, §4.2): the payload may hold one unit
(type in the first byte), a fragment (FU: the fragmented unit's type sits in
the second byte), or an aggregate (STAP: walk every contained unit); it is a
key frame iff a contained unit has the instantaneous-refresh type. -/
def IsKeyFrame (get : Nat → Option Nat) (len : Nat) : Bool :=
  match get 0 with
  | none => false
  | some b0 =>
    if nalUnitType b0 = stapUnitType then walkAggregate get len len 1
    else if nalUnitType b0 = fuUnitType then
      match get 1 with
      | none => false
      | some b1 => decide (nalUnitType b1 = idrUnitType)
    else decide (nalUnitType b0 = idrUnitType)

end H264

/-- Modelled from the spec (Family C, §4.2): the type fields of the units an
aggregation packet contains, in order.  A unit counts as contained exactly
when its 2-byte size field and all its bytes lie inside the view and its
size is non-zero; the walk stops at the first malformed entry, mirroring the
guards of walkAggregate. -/
def aggregateUnitTypes (get : Nat → Option Nat) (len : Nat) : Nat → Nat → List Nat
  | 0, _ => []
  | fuel + 1, offset =>
    match get offset, get (offset + 1) with
    | some hi, some lo =>
      if hi * 256 + lo = 0 then []
      else if len < offset + 2 + (hi * 256 + lo) then []
      else
        match get (offset + 2) with
        | none => []
        | some b => nalUnitType b :: aggregateUnitTypes get len fuel (offset + 2 + (hi * 256 + lo))
    | _, _ => []

/-- Modelled from the spec (Family C, §4.2): the type fields of the logical
units a Family-C payload contains under its packetization — the single
unit's type, the fragmented unit's type, or the types of every aggregated
unit. -/
def containedUnitTypes (get : Nat → Option Nat) (len : Nat) : List Nat :=
  match get 0 with
  | none => []
  | some b0 =>
    if nalUnitType b0 = stapUnitType then aggregateUnitTypes get len len 1
    else if nalUnitType b0 = fuUnitType then
      match get 1 with
      | none => []
      | some b1 => [nalUnitType b1]
    else [nalUnitType b0]

/-- Modelled from the spec: does the codec identity denote the given family
and (case-insensitively) the given subtype? -/
def codecMatches (m : RtpCodecMimeType) (k : MediaKind) (s : String) : Bool :=
  decide (m.kind = k ∧ normalizeSubtype m.subtype = normalizeSubtype s)

/-- Modelled from the spec (§2, §4): the capability registry, a fixed
build-time table mapping a codec identity to its associated key-frame
parser.  Family A = video/VP8, Family B = video/VP9, Family C = video/H264;
audio/opus is supported but has no key-frame concept, so its entry is the
constantly-false parser (spec §8 Scenario 4). -/
def parserFor (m : RtpCodecMimeType) :
    Option ((Nat → Option Nat) → Nat → Bool) :=
  if codecMatches m MediaKind.video "vp8" then some (fun get _ => VP8.IsKeyFrame get)
  else if codecMatches m MediaKind.video "vp9" then some (fun get _ => VP9.IsKeyFrame get)
  else if codecMatches m MediaKind.video "h264" then some H264.IsKeyFrame
  else if codecMatches m MediaKind.audio "opus" then some (fun _ _ => false)
  else none

/-- Modelled from the spec: the supported set, as (family, normalized
subtype) pairs — the registry's key set. -/
def supportedCodecs : List (MediaKind × List Char) :=
  [(MediaKind.video, normalizeSubtype "vp8"), (MediaKind.video, normalizeSubtype "vp9"),
   (MediaKind.video, normalizeSubtype "h264"), (MediaKind.audio, normalizeSubtype "opus")]

/-- Modelled from the spec (§4.1): RTC::Codecs::isKnown — a codec identity
is known iff the registry holds an entry for it. -/
def isKnown (m : RtpCodecMimeType) : Bool :=
  (parserFor m).isSome

/-- Modelled from the spec (§4.2): RTC::Codecs::isKeyFrame — look the codec
identity up in the registry and run its parser over the bounds-checked view
of the payload; an unknown identity answers false deterministically. -/
def isKeyFrame (m : RtpCodecMimeType) (data : Nat → Nat) (len : Nat) : Bool :=
  match parserFor m with
  | some p => p (viewRead data len) len
  | none => false

/-- Key-frame test of a payload given as a byte list. -/
def isKeyFrameL (m : RtpCodecMimeType) (p : List Nat) : Bool :=
  isKeyFrame m (payloadOf p) p.length

/-- Family-A video codec identity as the negotiation layer supplies it. -/
def vp8Mime : RtpCodecMimeType := ⟨MediaKind.video, "VP8"⟩

/-- Family-C video codec identity as the negotiation layer supplies it. -/
def h264Mime : RtpCodecMimeType := ⟨MediaKind.video, "H264"⟩

/-- Audio codec identity with no key-frame concept. -/
def opusMime : RtpCodecMimeType := ⟨MediaKind.audio, "opus"⟩

example : isKeyFrameL vp8Mime [0x10] = true := by decide
example : isKeyFrameL vp8Mime [0x11] = false := by decide
example : isKeyFrameL vp8Mime [0x80, 0x81, 0x10] = true := by decide
example : isKnown opusMime = true := by decide
example : isKeyFrameL opusMime [0x10] = false := by decide
example : isKnown ⟨MediaKind.video, "av1"⟩ = false := by decide
example : isKeyFrameL h264Mime [0x65] = true := by decide
example : isKeyFrameL h264Mime [0x41] = false := by decide
example : isKeyFrameL h264Mime [0x78, 0x00, 0x01, 0x65] = true := by decide
example : isKeyFrameL h264Mime [0x78, 0x00, 0x01, 0x41, 0x00, 0x01, 0x65] = true := by decide
example : isKeyFrameL h264Mime [0x7c, 0x45] = true := by decide

/-- Two payload views of the same length that agree byte-for-byte inside
that length give rise to the same bounds-checked cursor. -/
theorem viewRead_agree (data data' : Nat → Nat) (len : Nat)
    (h : ∀ i, i < len → data i = data' i) :
    viewRead data len = viewRead data' len := by
  funext i
  unfold viewRead
  by_cases hi : i < len
  · rw [if_pos hi, if_pos hi, h i hi]
  · rw [if_neg hi, if_neg hi]

/-- The result of isKeyFrame is determined by the bytes inside the supplied
length alone: every parser reads through the bounds-checked cursor. -/
theorem isKeyFrame_agree (m : RtpCodecMimeType) (data data' : Nat → Nat) (len : Nat)
    (h : ∀ i, i < len → data i = data' i) :
    isKeyFrame m data len = isKeyFrame m data' len := by
  unfold isKeyFrame
  rw [viewRead_agree data data' len h]

/-- Identity matching unfolded to its propositional content. -/
theorem codecMatches_eq_true (m : RtpCodecMimeType) (k : MediaKind) (s : String) :
    codecMatches m k s = true ↔
      m.kind = k ∧ normalizeSubtype m.subtype = normalizeSubtype s := by
  simp [codecMatches]

/-- A codec identity outside the supported set has no registry entry. -/
theorem parserFor_eq_none (m : RtpCodecMimeType)
    (h : (m.kind, normalizeSubtype m.subtype) ∉ supportedCodecs) :
    parserFor m = none := by
  simp only [supportedCodecs, List.mem_cons, List.not_mem_nil, or_false, not_or] at h
  obtain ⟨h1, h2, h3, h4⟩ := h
  have key : ∀ (k : MediaKind) (s : String),
      (m.kind, normalizeSubtype m.subtype) ≠ (k, normalizeSubtype s) →
      codecMatches m k s = false := by
    intro k s hne
    rw [Bool.eq_false_iff]
    intro hc
    rcases (codecMatches_eq_true m k s).mp hc with ⟨hk, hs⟩
    exact hne (by rw [hk, hs])
  simp [parserFor, key _ _ h1, key _ _ h2, key _ _ h3, key _ _ h4]

/-- C1: for every codec identity not in the supported set, isKnown returns
false, and for every payload isKeyFrame returns false. -/
theorem unknown_codec_conservative (m : RtpCodecMimeType)
    (h : (m.kind, normalizeSubtype m.subtype) ∉ supportedCodecs) :
    isKnown m = false ∧ ∀ data len, isKeyFrame m data len = false := by
  have hn := parserFor_eq_none m h
  exact ⟨by simp [isKnown, hn], fun data len => by simp [isKeyFrame, hn]⟩

/-- Witness for C1 at the unsupported identity video/"av1". -/
theorem unknown_codec_conservative_witness :
    ((MediaKind.video, normalizeSubtype "av1") ∉ supportedCodecs) ∧
      (isKnown ⟨MediaKind.video, "av1"⟩ = false ∧
        ∀ data len, isKeyFrame ⟨MediaKind.video, "av1"⟩ data len = false) :=
  ⟨by decide, unknown_codec_conservative ⟨MediaKind.video, "av1"⟩ (by decide)⟩

/-- C2 counterexample: [0x10, 0x00] is a valid Family-A key-frame payload
(the parser's required reads all lie inside it and its header index
resolves), yet isKeyFrame on its strict one-byte truncation still returns
true, not false: the dropped byte is one the parser never inspects. -/
theorem truncated_valid_payload_counterexample :
    isKeyFrameL vp8Mime [0x10, 0x00] = true ∧
      (familyAHeaderIndex (viewRead (payloadOf [0x10, 0x00]) 2)).isSome = true ∧
      (1 < [0x10, 0x00].length ∧ isKeyFrameL vp8Mime ([0x10, 0x00].take 1) = true) := by
  decide

/-- C2 amended: for every payload P and every k ≤ |P|, isKeyFrame on the
k-byte truncation terminates and reads no byte at an index ≥ k — running it
over a view whose bytes beyond index k are arbitrary garbage gives exactly
the result on the truncation itself.  It returns false whenever a required
field fails its bounds check, but a truncation that still holds every byte
the parser inspects keeps the full payload's result, which may be true. -/
theorem isKeyFrame_truncation_in_bounds (m : RtpCodecMimeType) (p : List Nat) (k : Nat)
    (junk : Nat → Nat) (h : k ≤ p.length) :
    isKeyFrame m (fun i => if i < k then payloadOf p i else junk i) k
      = isKeyFrameL m (p.take k) := by
  unfold isKeyFrameL
  have hlen : (p.take k).length = k := by
    simp [List.length_take]
    omega
  rw [hlen]
  apply isKeyFrame_agree
  intro i hi
  simp only [payloadOf, if_pos hi]
  simp [List.getD_eq_getElem?_getD, List.getElem?_take_of_lt hi]

/-- Witness for the amended C2 at P = [0x80, 0x81, 0x10], k = 2. -/
theorem isKeyFrame_truncation_in_bounds_witness :
    ((2 : Nat) ≤ [0x80, 0x81, 0x10].length) ∧
      isKeyFrame vp8Mime (fun i => if i < 2 then payloadOf [0x80, 0x81, 0x10] i else 0xFF) 2
        = isKeyFrameL vp8Mime ([0x80, 0x81, 0x10].take 2) :=
  ⟨by decide, isKeyFrame_truncation_in_bounds vp8Mime [0x80, 0x81, 0x10] 2 (fun _ => 0xFF)
    (by decide)⟩

/-- C3: for every codec identity and every byte view, isKeyFrame denotes a
total boolean-valued computation, and its value never depends on bytes
outside the supplied range: two views agreeing inside the length give the
same answer. -/
theorem isKeyFrame_total_in_bounds (m : RtpCodecMimeType) (data data' : Nat → Nat)
    (len : Nat) (h : ∀ i, i < len → data i = data' i) :
    (isKeyFrame m data len = false ∨ isKeyFrame m data len = true) ∧
      isKeyFrame m data len = isKeyFrame m data' len :=
  ⟨Bool.dichotomy _, isKeyFrame_agree m data data' len h⟩

/-- Witness for C3 at the Family-A identity with two views agreeing on the
single in-range byte 0x10 and wildly disagreeing beyond it. -/
theorem isKeyFrame_total_in_bounds_witness :
    (∀ i, i < 1 → (fun _ : Nat => 0x10) i = (fun j : Nat => if j = 0 then 0x10 else 99) i) ∧
      ((isKeyFrame vp8Mime (fun _ => 0x10) 1 = false ∨
          isKeyFrame vp8Mime (fun _ => 0x10) 1 = true) ∧
        isKeyFrame vp8Mime (fun _ => 0x10) 1
          = isKeyFrame vp8Mime (fun j => if j = 0 then 0x10 else 99) 1) :=
  ⟨fun i hi => by
      have hz : i = 0 := Nat.lt_one_iff.mp hi
      subst hz
      rfl,
   isKeyFrame_total_in_bounds vp8Mime _ _ 1 (fun i hi => by
      have hz : i = 0 := Nat.lt_one_iff.mp hi
      subst hz
      rfl)⟩

/-- C4: for the Family-A video codec, the single-byte payload 0x10 (no
extension flags, frame-type bit 0) is a key frame and the single-byte
payload 0x11 (frame-type bit 1) is not. -/
theorem familyA_single_byte_scenarios :
    isKeyFrameL vp8Mime [0x10] = true ∧ isKeyFrameL vp8Mime [0x11] = false := by
  decide

/-- C5: for the Family-A video codec, on [0x80, 0x81, 0x10] the parser
resolves the payload-header index to 2 — skipping the 2-byte descriptor
(flag byte plus one extension byte) — and reads frame-type bit 0 there,
answering true. -/
theorem familyA_extended_descriptor_scenario :
    familyAHeaderIndex (viewRead (payloadOf [0x80, 0x81, 0x10]) 3) = some 2 ∧
      isKeyFrameL vp8Mime [0x80, 0x81, 0x10] = true := by
  decide

/-- The aggregate walk succeeds exactly when an aggregated unit of the
instantaneous-refresh type is contained in the view. -/
theorem walkAggregate_eq_mem (get : Nat → Option Nat) (len : Nat) :
    ∀ fuel offset, walkAggregate get len fuel offset = true ↔
      idrUnitType ∈ aggregateUnitTypes get len fuel offset := by
  intro fuel
  induction fuel with
  | zero =>
    intro offset
    simp [walkAggregate, aggregateUnitTypes]
  | succ n ih =>
    intro offset
    rw [walkAggregate, aggregateUnitTypes]
    cases h0 : get offset with
    | none => simp
    | some hi =>
      cases h1 : get (offset + 1) with
      | none => simp
      | some lo =>
        by_cases hz : hi * 256 + lo = 0
        · simp [hz]
        · by_cases hfit : len < offset + 2 + (hi * 256 + lo)
          · simp [hz, hfit]
          · cases h2 : get (offset + 2) with
            | none => simp [hz, hfit]
            | some b =>
              by_cases hidr : nalUnitType b = idrUnitType
              · simp [hz, hfit, hidr]
              · simp [hz, hfit, hidr, ih, Ne.symm hidr]

/-- The registry entry of the Family-C identity is the Family-C parser. -/
theorem parserFor_h264 : parserFor h264Mime = some H264.IsKeyFrame := by
  rfl

/-- A Family-C parse succeeds exactly when the view contains a unit of the
instantaneous-refresh type, over any cursor. -/
theorem h264_parse_eq_mem (get : Nat → Option Nat) (len : Nat) :
    H264.IsKeyFrame get len = true ↔ idrUnitType ∈ containedUnitTypes get len := by
  unfold H264.IsKeyFrame containedUnitTypes
  cases h0 : get 0 with
  | none => simp [h0]
  | some b0 =>
    simp only [h0]
    by_cases hs : nalUnitType b0 = stapUnitType
    · simp [hs, walkAggregate_eq_mem]
    · rw [if_neg hs, if_neg hs]
      by_cases hf : nalUnitType b0 = fuUnitType
      · rw [if_pos hf, if_pos hf]
        cases h1 : get 1 with
        | none => simp [h1]
        | some b1 =>
          simp only [h1, decide_eq_true_eq, List.mem_singleton]
          exact eq_comm
      · rw [if_neg hf, if_neg hf]
        simp only [decide_eq_true_eq, List.mem_singleton]
        exact eq_comm

/-- C6: for the Family-C (unit-typed) codec, isKeyFrame answers true exactly
when some logical unit contained in the payload — under single-unit,
fragmented or aggregated packetization — has the instantaneous-refresh unit
type. -/
theorem familyC_keyframe_iff_idr_unit (data : Nat → Nat) (len : Nat) :
    isKeyFrame h264Mime data len = true ↔
      idrUnitType ∈ containedUnitTypes (viewRead data len) len := by
  rw [isKeyFrame, parserFor_h264]
  exact h264_parse_eq_mem (viewRead data len) len

/-- Witness for C6 at the single-unit instantaneous-refresh payload
[0x65]. -/
theorem familyC_keyframe_iff_idr_unit_witness :
    isKeyFrame h264Mime (payloadOf [0x65]) 1 = true ↔
      idrUnitType ∈ containedUnitTypes (viewRead (payloadOf [0x65]) 1) 1 :=
  familyC_keyframe_iff_idr_unit (payloadOf [0x65]) 1

/-- C7: for every audio codec identity, isKeyFrame answers false on every
payload — the registry carries no key-frame notion for audio — while the
supported audio identity audio/opus is nonetheless known. -/
theorem audio_never_keyframe (m : RtpCodecMimeType) (data : Nat → Nat) (len : Nat)
    (h : m.kind = MediaKind.audio) :
    isKeyFrame m data len = false ∧ isKnown opusMime = true := by
  refine ⟨?_, by decide⟩
  have hv : ∀ s, codecMatches m MediaKind.video s = false := by
    intro s
    simp [codecMatches, h]
  rw [isKeyFrame, parserFor]
  simp only [hv, Bool.false_eq_true, if_false]
  by_cases ho : codecMatches m MediaKind.audio "opus" = true
  · simp [ho]
  · simp [ho]

/-- Witness for C7 at audio/opus with a three-byte payload. -/
theorem audio_never_keyframe_witness :
    (opusMime.kind = MediaKind.audio) ∧
      (isKeyFrame opusMime (payloadOf [1, 2, 3]) 3 = false ∧ isKnown opusMime = true) :=
  ⟨rfl, audio_never_keyframe opusMime (payloadOf [1, 2, 3]) 3 rfl⟩

/-- C8: two calls with equal codec identities, equal lengths and payload
views that agree byte-for-byte over the supplied length return the same
results, both for isKnown and for isKeyFrame. -/
theorem repeated_calls_deterministic (m m' : RtpCodecMimeType) (data data' : Nat → Nat)
    (len len' : Nat) (hm : m = m') (hlen : len = len')
    (hdata : ∀ i, i < len → data i = data' i) :
    isKnown m = isKnown m' ∧ isKeyFrame m data len = isKeyFrame m' data' len' := by
  subst hm
  subst hlen
  exact ⟨rfl, isKeyFrame_agree m data data' len hdata⟩

/-- Witness for C8 at the Family-A identity and two extensionally equal
single-byte views. -/
theorem repeated_calls_deterministic_witness :
    (vp8Mime = vp8Mime ∧ (1 : Nat) = 1 ∧
        ∀ i, i < 1 → payloadOf [0x11] i = (fun j : Nat => if j = 0 then 0x11 else 7) i) ∧
      (isKnown vp8Mime = isKnown vp8Mime ∧
        isKeyFrame vp8Mime (payloadOf [0x11]) 1
          = isKeyFrame vp8Mime (fun j => if j = 0 then 0x11 else 7) 1) :=
  ⟨⟨rfl, rfl, fun i hi => by
      have hz : i = 0 := Nat.lt_one_iff.mp hi
      subst hz
      rfl⟩,
   repeated_calls_deterministic vp8Mime vp8Mime _ _ 1 1 rfl rfl (fun i hi => by
      have hz : i = 0 := Nat.lt_one_iff.mp hi
      subst hz
      rfl)⟩

/-- C10: two codec identities of the same family whose subtypes agree up to
letter case are treated identically: isKnown coincides on them and, for
every payload view, so does isKeyFrame. -/
theorem case_insensitive_dispatch (m m' : RtpCodecMimeType)
    (hk : m.kind = m'.kind)
    (hs : normalizeSubtype m.subtype = normalizeSubtype m'.subtype) :
    isKnown m = isKnown m' ∧ ∀ data len, isKeyFrame m data len = isKeyFrame m' data len := by
  have hp : parserFor m = parserFor m' := by
    unfold parserFor codecMatches
    rw [hk, hs]
  exact ⟨by simp [isKnown, hp], fun data len => by simp [isKeyFrame, hp]⟩

/-- Witness for C10 at video/"VP8" versus video/"vp8" — the registry result
agrees and so does the key-frame answer on every payload. -/
theorem case_insensitive_dispatch_witness :
    (vp8Mime.kind = RtpCodecMimeType.kind ⟨MediaKind.video, "vp8"⟩ ∧
        normalizeSubtype vp8Mime.subtype
          = normalizeSubtype (RtpCodecMimeType.subtype ⟨MediaKind.video, "vp8"⟩)) ∧
      (isKnown vp8Mime = isKnown ⟨MediaKind.video, "vp8"⟩ ∧
        ∀ data len,
          isKeyFrame vp8Mime data len = isKeyFrame ⟨MediaKind.video, "vp8"⟩ data len) :=
  ⟨⟨rfl, by decide⟩, case_insensitive_dispatch vp8Mime ⟨MediaKind.video, "vp8"⟩ rfl (by decide)⟩

end Codecs

end RTC
